import Mathlib

/-!
Shallow embedding of the message production/consumption engine of the
`hub-core` library (crates/core/src/{consumer,producer,triage}.rs and
crates/core-macros/src/triage.rs), with theorems settling the spec claims.
-/

namespace HubCore

/-! ### Severity model (crates/core/src/triage.rs) -/

/-- `Severity` from triage.rs: classification of an error driving retry
policy. -/
inductive Severity where
  | Transient
  | Permanent
  | Fatal
deriving DecidableEq, Repr

/-! ### Consumer per-event retry loop (crates/core/src/consumer.rs, the
task body spawned in `Consumer::consume`, lines 149-172) -/

/-- Result of one handler invocation: `Ok(())` or `Err(e)` with the
severity `e.severity()` reports. -/
inductive HandlerResult where
  | ok
  | err (s : Severity)
deriving DecidableEq, Repr

/-- How a spawned handler task ends. `completed` models any `break 'retry`
(the task future resolves with `()`); `aborted` models reaching
`abort().await`, which logs, sleeps one 5-second grace delay, and then
calls `std::process::abort()` — it never invokes the handler again. -/
inductive TaskOutcome where
  | completed
  | aborted
deriving DecidableEq, Repr

/-- The `'retry` loop of the task spawned per received event.  `evt` is the
event captured by the task; each iteration runs `handle.clone()(evt.clone())`,
whose outcome on the `i`-th invocation is `handler i`.  `backoff` is the
number of delays the inner backoff iterator (`handler_backoff.build()`) can
still yield.  Returns the list of events the handler was invoked with
(one entry per invocation, each a clone of `evt`) and how the task ended.

Control flow mirrors the source: `Ok` breaks; `Err` logs, then matches the
severity: `Transient` falls through to the backoff check, `Permanent`
breaks, `Fatal` awaits `abort()`; the backoff check breaks when the
iterator is exhausted and otherwise sleeps and loops.
The source checks the handler result first and the backoff iterator second;
matching on `backoff` first here is the same function (a `Transient` result
with an exhausted iterator breaks the loop either way). -/
def retryTrace {G : Type} (evt : G) (handler : Nat → HandlerResult)
    (backoff : Nat) : List G × TaskOutcome :=
  match backoff with
  | 0 =>
    match handler 0 with
    | .ok | .err .Permanent | .err .Transient => ([evt], .completed)
    | .err .Fatal => ([evt], .aborted)
  | b + 1 =>
    match handler 0 with
    | .ok | .err .Permanent => ([evt], .completed)
    | .err .Fatal => ([evt], .aborted)
    | .err .Transient =>
      let rest := retryTrace evt (fun i => handler (i + 1)) b
      (evt :: rest.1, rest.2)

/-! ### Consumer receive-path error handling (consumer.rs lines 174-180)

On `Event::Event(Some(Err(e)))` the loop logs a warning and consults only
the *outer* backoff iterator: if it is exhausted, `abort_internal().await`
terminates the process; otherwise the loop sleeps the yielded delay and
continues receiving records.  The severity of the receive error is never
inspected on this path. -/

/-- What the `'recv` loop does after observing one receive-path error.
`continueLoop b` means the loop sleeps and keeps processing records with
`b` outer-backoff delays left; `abortProcess` means `abort_internal()`
runs (grace delay, then process abort). -/
inductive RecvAction where
  | continueLoop (remainingBackoff : Nat)
  | abortProcess
deriving DecidableEq, Repr

/-- Handling of `Event::Event(Some(Err(e)))` in `Consumer::consume`: the
severity `sev` of the receive error is carried but never consulted,
exactly as in the source, where the error is only logged. -/
def onRecvError (_sev : Severity) (outerBackoff : Nat) : RecvAction :=
  match outerBackoff with
  | 0 => .abortProcess
  | b + 1 => .continueLoop b

/-- Handler outcomes for the C2 scenario: two `Transient` failures, then
success. -/
def twiceTransientHandler : Nat → HandlerResult :=
  fun i => if i < 2 then .err .Transient else .ok

/-! ### Producer (crates/core/src/producer.rs) -/

/-- `INTERVAL` from `Producer::send`: seconds between partition-count
refreshes (`5 * 60`). -/
def INTERVAL : Int := 5 * 60

/-- The `Shared` state of producer.rs: the cached partition count and the
timestamp of the last partition check.  Both are atomics in the source;
their operations are modelled as serialised state updates. -/
structure Shared where
  partition_count : Nat
  last_partition_check : Int
deriving DecidableEq, Repr

/-- `Shared::default()`: count `1`, last check `i64::MIN`. -/
def Shared.default : Shared :=
  { partition_count := 1, last_partition_check := -(2 ^ 63) }

/-- The `fetch_update` closure on `last_partition_check` in
`Producer::send`: the update succeeds (storing `now`) iff the stored
timestamp is strictly older than `now - INTERVAL`. -/
def fetchUpdate (t now : Int) : Option Int :=
  if t < now - INTERVAL then some now else none

/-- Environment of one `Producer::send` call: the wall-clock timestamp
read at entry, the broker metadata outcome were it queried (the topic's
partition count, or `none` for a fetch error), the random draw feeding
`gen_range`, and whether the broker write succeeds. -/
structure SendEnv where
  now : Int
  metadata : Option Nat
  rng : Nat
  writeOk : Bool
deriving DecidableEq, Repr

/-- How one `send` call ends: `Ok(())`, `Err(SendError)`, or the panic of
`gen_range` on an empty range. -/
inductive SendOutcome where
  | ok
  | sendError
  | panicked
deriving DecidableEq, Repr

/-- Observable effects of one `send` call: the updated shared cache,
whether this call queried broker metadata, the partition count it used
(read from or stored into the cache), the partition index dispatched, and
the outcome. -/
structure SendResult where
  state : Shared
  queried : Bool
  partsUsed : Nat
  partition : Option Nat
  outcome : SendOutcome
deriving DecidableEq, Repr

/-- The straight-line tail of `Producer::send` (producer.rs lines
133-161): draw a random partition in `0..parts` (`gen_range` panics when
the range is empty), convert it to `i32` with `unwrap_or(0)`, and perform
the broker write, whose outcome alone decides between `Ok` and
`SendError`. -/
def dispatchRecord (st : Shared) (queried : Bool) (parts rng : Nat)
    (writeOk : Bool) : SendResult :=
  if parts = 0 then
    { state := st, queried := queried, partsUsed := parts,
      partition := none, outcome := .panicked }
  else
    let raw := rng % parts
    let part := if raw ≤ 2 ^ 31 - 1 then raw else 0
    { state := st, queried := queried, partsUsed := parts,
      partition := some part,
      outcome := if writeOk then .ok else .sendError }

/-- `Producer::send` (producer.rs lines 95-162).  The compare-and-swap on
`last_partition_check` decides whether this call refreshes the partition
count; a winning call queries metadata and on success stores the fresh
count, on failure (`env.metadata = none`) only warns; every call then uses
the fresh count when available and otherwise loads the cached one, and
dispatches the record. -/
def Producer.send (st : Shared) (env : SendEnv) : SendResult :=
  let cas := fetchUpdate st.last_partition_check env.now
  let st1 : Shared :=
    match cas with
    | some t => { st with last_partition_check := t }
    | none => st
  let fetched : Option Nat := if cas.isSome then env.metadata else none
  let st2 : Shared :=
    match fetched with
    | some p => { st1 with partition_count := p }
    | none => st1
  let parts := fetched.getD st2.partition_count
  dispatchRecord st2 cas.isSome parts env.rng env.writeOk

/-- Serialisation of N concurrent `send` calls: the atomic operations on
the shared cache make concurrent calls take effect in some order;
`runSends` folds that order, returning the final cache state and how many
of the calls performed a broker metadata query. -/
def runSends (st : Shared) (envs : List SendEnv) : Shared × Nat :=
  match envs with
  | [] => (st, 0)
  | env :: rest =>
    let r := Producer.send st env
    let p := runSends r.state rest
    (p.1, (if r.queried then 1 else 0) + p.2)

/-! ### Producer construction (producer.rs lines 59-91) -/

/-- Per-topic outcome inside a successful `create_topics` call: the topic
name on success, or the name with the broker error code on failure (such
as `TopicAlreadyExists` or an authorization failure). -/
inductive TopicResult where
  | created (name : String)
  | failed (name : String) (code : String)
deriving DecidableEq, Repr

/-- Outcome of `Producer::new`, with the error context strings of the
source. -/
inductive BuildOutcome where
  | ok
  | error (ctx : String)
deriving DecidableEq, Repr

/-- `Producer::new`: creates an admin client, awaits `create_topics`, and
creates the producer client.  `createTopics = none` models the admin call
itself failing; `createTopics = some results` models the call succeeding
with per-topic `results` — which the source binds and never inspects, so
no per-topic failure (nor success) influences the outcome. -/
def Producer.new (adminOk : Bool) (createTopics : Option (List TopicResult))
    (producerOk : Bool) : BuildOutcome :=
  if ¬ adminOk then .error "Failed to create Kafka admin client"
  else
    match createTopics with
    | none => .error "Failed to create test topic"
    | some _results =>
      if ¬ producerOk then .error "Failed to create Kafka producer"
      else .ok

/-! ### Severity classifications (triage.rs impls) -/

/-- `rdkafka::error::KafkaError` as inspected by its `Triage` impl
(triage.rs lines 103-120): `withCode` abstracts every value for which
`rdkafka_error_code()` yields a protocol error code; the remaining
constructors are the variants the structural `match` names, with `other`
standing for every variant reached by the catch-all arm. -/
inductive KafkaError where
  | withCode (code : Nat)
  | NoMessageReceived
  | PartitionEOF (partition : Int)
  | Transaction (retriable : Bool)
  | Nul
  | other
deriving DecidableEq, Repr

/-- `impl Triage for rdkafka::error::RDKafkaErrorCode`: every code is
`Transient`. -/
def errorCodeSeverity (_code : Nat) : Severity := .Transient

/-- `impl Triage for KafkaError`: defer to the inner error code when one
is present, otherwise match structurally (`NoMessageReceived` and
`PartitionEOF` are `Transient`, a retriable `Transaction` is `Transient`,
`Nul` is `Fatal`, everything else `Permanent`). -/
def KafkaError.severity : KafkaError → Severity
  | .withCode c => errorCodeSeverity c
  | .NoMessageReceived => .Transient
  | .PartitionEOF _ => .Transient
  | .Transaction r => if r then .Transient else .Permanent
  | .Nul => .Fatal
  | .other => .Permanent

/-- `prost::DecodeError`, opaque save for its message. -/
structure DecodeError where
  description : String
deriving DecidableEq, Repr

/-- `impl Triage for prost::DecodeError`: always `Permanent`. -/
def DecodeError.severity (_e : DecodeError) : Severity := .Permanent

/-- `RecvError` (consumer.rs lines 229-248). -/
inductive RecvError where
  | Kafka (e : KafkaError)
  | Protobuf (e : DecodeError)
  | BadTopic (topic : String)
  | MissingKey
  | MissingPayload
deriving DecidableEq, Repr

/-- The `Triage` impl the derive emits for `RecvError`: `Kafka` and
`Protobuf` each carry a `#[from]` field and so defer to that field's
severity; `BadTopic`, `MissingKey` and `MissingPayload` carry neither a
severity marker nor a source field and take the `Permanent` default. -/
def RecvError.severity : RecvError → Severity
  | .Kafka e => e.severity
  | .Protobuf e => e.severity
  | .BadTopic _ => .Permanent
  | .MissingKey => .Permanent
  | .MissingPayload => .Permanent

/-! ### The Triage derive (crates/core-macros/src/triage.rs,
`parse_fields`) -/

/-- An attribute on an error variant as classified by `parse_fields`: one
of the three severity markers, or anything else (`_ => None`). -/
inductive VariantAttr where
  | transient
  | permanent
  | fatal
  | otherAttr
deriving DecidableEq, Repr

/-- The severity a marker attribute contributes (`Some("transient") =>
Some(TRANSIENT)` and so on). -/
def VariantAttr.sevName : VariantAttr → Option Severity
  | .transient => some .Transient
  | .permanent => some .Permanent
  | .fatal => some .Fatal
  | .otherAttr => none

/-- One step of the attribute fold in `parse_fields` (lines 73-97): a
diagnostic is appended when a severity marker was already chosen and a
second one appears; `next.or(d)` lets the later marker win. -/
def explicitStep (acc : Option Severity × List String) (a : VariantAttr) :
    Option Severity × List String :=
  (match a.sevName with
    | some s => some s
    | none => acc.1,
   if acc.1.isSome ∧ a.sevName.isSome
   then acc.2 ++ ["Duplicate severity attribute"]
   else acc.2)

/-- The attribute fold of `parse_fields`, started from `None` with no
diagnostics. -/
def explicitFold (attrs : List VariantAttr) : Option Severity × List String :=
  attrs.foldl explicitStep (none, [])

/-- One step of the field fold in `parse_fields` (lines 99-125), over the
enumerated fields: a field marked `#[source]` or `#[from]` contributes its
index, a diagnostic is appended when a second marked field appears, and
`next.or(s)` lets the later field win. -/
def sourceStep (acc : Option Nat × List String) (f : Nat × Bool) :
    Option Nat × List String :=
  let next : Option Nat := if f.2 then some f.1 else none
  (match next with
    | some i => some i
    | none => acc.1,
   if acc.1.isSome ∧ next.isSome
   then acc.2 ++ ["Multiple fields marked with #[source]"]
   else acc.2)

/-- The field fold of `parse_fields`: each field is represented by whether
it bears a `#[source]`/`#[from]` attribute. -/
def sourceFold (fields : List Bool) : Option Nat × List String :=
  fields.enum.foldl sourceStep (none, [])

/-- The severity expression `parse_fields` emits: a fixed `Severity::X`
constant, or `Triage::severity` applied to field `i`. -/
inductive SevExpr where
  | const (s : Severity)
  | deferToField (i : Nat)
deriving DecidableEq, Repr

/-- `parse_fields` (lines 63-137), restricted to its observable outcome:
the diagnostics produced and the severity expression chosen.  The arms
mirror the source `match (explicit, source)`: `(s, None) | (s @ Some(_),
Some(_))` yields the explicit severity (default `PERMANENT`), and `(None,
Some(f))` defers to field `f`. -/
def parse_fields (attrs : List VariantAttr) (fields : List Bool) :
    List String × SevExpr :=
  let ex := explicitFold attrs
  let so := sourceFold fields
  let sev : SevExpr :=
    match ex.1, so.1 with
    | s, none => .const (s.getD .Permanent)
    | some s, some _ => .const s
    | none, some f => .deferToField f
  (ex.2 ++ so.2, sev)

end HubCore

namespace HubCore

/-- A handler that succeeds on its first invocation is invoked exactly
once and the task completes. -/
theorem retryTrace_first_ok {G : Type} (evt : G)
    (handler : Nat → HandlerResult) (backoff : Nat) (h : handler 0 = .ok) :
    retryTrace evt handler backoff = ([evt], .completed) := by
  rcases backoff with _ | b <;> simp [retryTrace, h]

/-- `retryTrace` always invokes the handler at least once. -/
theorem retryTrace_length_pos {G : Type} (evt : G)
    (handler : Nat → HandlerResult) (backoff : Nat) :
    1 ≤ (retryTrace evt handler backoff).1.length := by
  rcases backoff with _ | b <;> rcases h : handler 0 with _ | (_ | _ | _) <;>
    simp [retryTrace, h]

/-- Every entry of the invocation trace is the originally captured event:
each re-invocation passes a clone of the same event. -/
theorem retryTrace_mem {G : Type} (evt : G) (handler : Nat → HandlerResult)
    (backoff : Nat) :
    ∀ x ∈ (retryTrace evt handler backoff).1, x = evt := by
  induction backoff generalizing handler with
  | zero =>
    intro x hx
    rcases h : handler 0 with _ | (_ | _ | _) <;> simp [retryTrace, h] at hx <;>
      exact hx
  | succ b ih =>
    intro x hx
    rcases h : handler 0 with _ | (_ | _ | _)
    · simp [retryTrace, h] at hx; exact hx
    · simp [retryTrace, h] at hx
      rcases hx with hx | hx
      · exact hx
      · exact ih (fun i => handler (i + 1)) x hx
    · simp [retryTrace, h] at hx; exact hx
    · simp [retryTrace, h] at hx; exact hx

/-- C1: a handler error of severity `Permanent` ends the per-event retry
loop after exactly one handler invocation, with the task completing
normally (`break 'retry`), regardless of the remaining inner backoff. -/
theorem permanent_single_invocation {G : Type} (evt : G)
    (handler : Nat → HandlerResult) (backoff : Nat)
    (h : handler 0 = .err .Permanent) :
    retryTrace evt handler backoff = ([evt], .completed) := by
  rcases backoff with _ | b <;> simp [retryTrace, h]

/-- Witness for C1 at a concrete handler and backoff budget. -/
theorem permanent_single_invocation_witness :
    retryTrace (0 : Nat) (fun _ => .err .Permanent) 5 = ([0], .completed) :=
  permanent_single_invocation 0 (fun _ => .err .Permanent) 5 rfl

/-- C2: a handler failing with a `Transient` error is re-invoked with a
clone of the original event while the inner backoff iterator still yields
a delay; in particular two `Transient` failures followed by success under a
backoff budget of at least two remaining delays (attempt cap at least 3)
give exactly three invocations, each with the original event, and a
normally completing task (no process termination). -/
theorem transient_retry_three_invocations {G : Type} (evt : G)
    (handler : Nat → HandlerResult) (backoff : Nat)
    (h0 : handler 0 = .err .Transient) :
    (1 ≤ backoff → 2 ≤ (retryTrace evt handler backoff).1.length) ∧
    (handler 1 = .err .Transient → handler 2 = .ok → 2 ≤ backoff →
      retryTrace evt handler backoff = ([evt, evt, evt], .completed)) := by
  constructor
  · intro hb
    rcases backoff with _ | b
    · exact absurd hb (by omega)
    · have := retryTrace_length_pos evt (fun i => handler (i + 1)) b
      simp [retryTrace, h0]
      omega
  · intro h1 h2 hb
    rcases backoff with _ | b
    · exact absurd hb (by omega)
    rcases b with _ | b
    · exact absurd hb (by omega)
    have h3 := retryTrace_first_ok evt (fun i => handler (i + 1 + 1)) b
      (by simpa using h2)
    simp [retryTrace, h0, h1, h3]

/-- Witness for C2: the scenario handler under a budget of two remaining
delays yields exactly three invocations and a completed task. -/
theorem transient_retry_three_invocations_witness :
    2 ≤ (retryTrace (0 : Nat) twiceTransientHandler 2).1.length ∧
    retryTrace (0 : Nat) twiceTransientHandler 2 = ([0, 0, 0], .completed) :=
  ⟨(transient_retry_three_invocations 0 twiceTransientHandler 2 (by decide)).1
      (by omega),
   (transient_retry_three_invocations 0 twiceTransientHandler 2 (by decide)).2
      (by decide) (by decide) (by omega)⟩

/-- C3 counterexample: a receive-path error of severity `Fatal` with
outer-backoff delays remaining does NOT terminate the process; the loop
sleeps and continues processing records (the severity is never consulted
on the receive path). -/
theorem fatal_recv_error_continues :
    onRecvError .Fatal 5 = .continueLoop 4 ∧
    onRecvError .Fatal 5 ≠ .abortProcess := by
  exact ⟨rfl, by simp [onRecvError]⟩

/-- C3 amended: a handler error of severity `Fatal` makes the task invoke
`abort()` after exactly one handler invocation (one grace delay, then
process abort, no further invocation by that task); a `Fatal` error on the
receive path is treated like every other receive error: with outer-backoff
delays remaining the loop continues, and only an exhausted outer backoff
aborts the process. -/
theorem fatal_handling_amended {G : Type} (evt : G)
    (handler : Nat → HandlerResult) (backoff : Nat) (sev : Severity) (b : Nat)
    (h : handler 0 = .err .Fatal) :
    retryTrace evt handler backoff = ([evt], .aborted) ∧
    onRecvError sev (b + 1) = .continueLoop b ∧
    onRecvError sev 0 = .abortProcess := by
  refine ⟨?_, rfl, rfl⟩
  rcases backoff with _ | n <;> simp [retryTrace, h]

/-- Witness for the amended C3 at a concrete handler, backoff and
severity. -/
theorem fatal_handling_amended_witness :
    retryTrace (0 : Nat) (fun _ => .err .Fatal) 3 = ([0], .aborted) ∧
    onRecvError .Fatal 4 = .continueLoop 3 ∧
    onRecvError .Fatal 0 = .abortProcess :=
  fatal_handling_amended 0 (fun _ => .err .Fatal) 3 .Fatal 3 rfl

/-! ### Producer lemmas -/

/-- A `send` whose compare-and-swap loses (cache still fresh) leaves the
cache untouched, queries nothing, and uses the cached count. -/
theorem send_no_win (st : Shared) (env : SendEnv)
    (h : ¬ st.last_partition_check < env.now - INTERVAL) :
    Producer.send st env
      = dispatchRecord st false st.partition_count env.rng env.writeOk := by
  simp [Producer.send, fetchUpdate, h]

/-- A `send` whose compare-and-swap wins and whose metadata fetch succeeds
stores the fresh count and timestamp and uses the fresh count. -/
theorem send_win_fetch_ok (st : Shared) (env : SendEnv) (p : Nat)
    (h : st.last_partition_check < env.now - INTERVAL)
    (hm : env.metadata = some p) :
    Producer.send st env
      = dispatchRecord ⟨p, env.now⟩ true p env.rng env.writeOk := by
  simp [Producer.send, fetchUpdate, h, hm]

/-- A `send` whose compare-and-swap wins but whose metadata fetch fails
keeps the cached count (storing only the timestamp) and proceeds with
it. -/
theorem send_win_fetch_failed (st : Shared) (env : SendEnv)
    (h : st.last_partition_check < env.now - INTERVAL)
    (hm : env.metadata = none) :
    Producer.send st env
      = dispatchRecord ⟨st.partition_count, env.now⟩ true st.partition_count
          env.rng env.writeOk := by
  simp [Producer.send, fetchUpdate, h, hm]

/-- `dispatchRecord` passes its state, query flag and partition count
through unchanged. -/
theorem dispatchRecord_fields (st : Shared) (queried : Bool)
    (parts rng : Nat) (writeOk : Bool) :
    (dispatchRecord st queried parts rng writeOk).state = st ∧
    (dispatchRecord st queried parts rng writeOk).queried = queried ∧
    (dispatchRecord st queried parts rng writeOk).partsUsed = parts := by
  unfold dispatchRecord
  split <;> simp

/-- With a positive partition count, `dispatchRecord` picks an index in
range, does not panic, and its outcome is decided by the write alone. -/
theorem dispatchRecord_in_range (st : Shared) (queried : Bool)
    (parts rng : Nat) (writeOk : Bool) (h : 1 ≤ parts) :
    (∃ p, (dispatchRecord st queried parts rng writeOk).partition = some p ∧
      p < parts) ∧
    (dispatchRecord st queried parts rng writeOk).outcome
      = (if writeOk then .ok else .sendError) := by
  have h0 : ¬ parts = 0 := by omega
  refine ⟨⟨if rng % parts ≤ 2 ^ 31 - 1 then rng % parts else 0, ?_, ?_⟩, ?_⟩
  · simp [dispatchRecord, h0]
  · have hm : rng % parts < parts := Nat.mod_lt _ (by omega)
    split <;> omega
  · simp [dispatchRecord, h0]

/-- A run of sends none of which finds the cache stale performs no
metadata query and leaves the cache unchanged. -/
theorem runSends_no_refresh (st : Shared) (envs : List SendEnv)
    (h : ∀ env ∈ envs, env.now - INTERVAL ≤ st.last_partition_check) :
    runSends st envs = (st, 0) := by
  induction envs with
  | nil => rfl
  | cons e rest ih =>
    have he : ¬ st.last_partition_check < e.now - INTERVAL := by
      have := h e (by simp)
      omega
    have hs := send_no_win st e he
    have hf := dispatchRecord_fields st false st.partition_count e.rng e.writeOk
    simp [runSends, hs, hf.1, hf.2.1,
      ih (fun x hx => h x (by simp [hx]))]

/-- C4: if the last refresh is within the 5-minute interval of every
concurrent send's clock reading, no send queries metadata; if it is older
than the interval (relative to the first serialised send) and the
concurrent sends' clock readings lie within one interval of the first
one's, then exactly one of the sends performs the metadata refresh. -/
theorem partition_cache_refresh (st : Shared) (e : SendEnv)
    (envs : List SendEnv) :
    ((∀ x ∈ e :: envs, x.now - INTERVAL ≤ st.last_partition_check) →
      (runSends st (e :: envs)).2 = 0) ∧
    (st.last_partition_check < e.now - INTERVAL →
      (∀ x ∈ envs, x.now ≤ e.now + INTERVAL) →
      (runSends st (e :: envs)).2 = 1) := by
  constructor
  · intro h
    rw [runSends_no_refresh st _ h]
  · intro h1 h2
    rcases hm : e.metadata with _ | p
    · have hs := send_win_fetch_failed st e h1 hm
      have hf := dispatchRecord_fields ⟨st.partition_count, e.now⟩ true
        st.partition_count e.rng e.writeOk
      have hrest := runSends_no_refresh (Producer.send st e).state envs
        (fun x hx => by
          rw [hs, hf.1]
          have := h2 x hx
          simp
          omega)
      rw [hs, hf.1] at hrest
      simp [runSends, hrest, hs, hf.1, hf.2.1]
    · have hs := send_win_fetch_ok st e p h1 hm
      have hf := dispatchRecord_fields ⟨p, e.now⟩ true p e.rng e.writeOk
      have hrest := runSends_no_refresh (Producer.send st e).state envs
        (fun x hx => by
          rw [hs, hf.1]
          have := h2 x hx
          simp
          omega)
      rw [hs, hf.1] at hrest
      simp [runSends, hrest, hs, hf.1, hf.2.1]

/-- Witness for C4: a fresh cache under two concurrent sends yields zero
metadata queries; a stale cache under two concurrent sends yields exactly
one. -/
theorem partition_cache_refresh_witness :
    (runSends ⟨4, 1000⟩ [⟨1100, some 7, 3, true⟩, ⟨1200, some 7, 5, true⟩]).2
      = 0 ∧
    (runSends ⟨4, 0⟩ [⟨1000, some 7, 3, true⟩, ⟨1100, some 7, 5, true⟩]).2
      = 1 :=
  ⟨(partition_cache_refresh ⟨4, 1000⟩ ⟨1100, some 7, 3, true⟩
      [⟨1200, some 7, 5, true⟩]).1 (by decide),
   (partition_cache_refresh ⟨4, 0⟩ ⟨1000, some 7, 3, true⟩
      [⟨1100, some 7, 5, true⟩]).2 (by decide) (by decide)⟩

/-- C5: when the refresh winner's metadata fetch fails, `send` falls back
to the previously cached partition count and its outcome is decided by
the broker write alone (the metadata failure never fails the send). -/
theorem metadata_failure_never_fails_send (st : Shared) (env : SendEnv)
    (hwin : st.last_partition_check < env.now - INTERVAL)
    (hm : env.metadata = none) (hc : 1 ≤ st.partition_count) :
    (Producer.send st env).queried = true ∧
    (Producer.send st env).partsUsed = st.partition_count ∧
    ((Producer.send st env).outcome = .ok ↔ env.writeOk = true) ∧
    ((Producer.send st env).outcome = .sendError ↔ env.writeOk = false) := by
  have hs := send_win_fetch_failed st env hwin hm
  have hf := dispatchRecord_fields ⟨st.partition_count, env.now⟩ true
    st.partition_count env.rng env.writeOk
  have hr := dispatchRecord_in_range ⟨st.partition_count, env.now⟩ true
    st.partition_count env.rng env.writeOk hc
  rw [hs]
  refine ⟨hf.2.1, hf.2.2, ?_, ?_⟩ <;> rw [hr.2] <;>
    cases env.writeOk <;> simp

/-- Witness for C5 at a concrete stale cache and failed fetch. -/
theorem metadata_failure_never_fails_send_witness :
    (Producer.send ⟨3, 0⟩ ⟨1000, none, 5, true⟩).queried = true ∧
    (Producer.send ⟨3, 0⟩ ⟨1000, none, 5, true⟩).partsUsed = 3 ∧
    ((Producer.send ⟨3, 0⟩ ⟨1000, none, 5, true⟩).outcome = .ok ↔
      (⟨1000, none, 5, true⟩ : SendEnv).writeOk = true) ∧
    ((Producer.send ⟨3, 0⟩ ⟨1000, none, 5, true⟩).outcome = .sendError ↔
      (⟨1000, none, 5, true⟩ : SendEnv).writeOk = false) :=
  metadata_failure_never_fails_send ⟨3, 0⟩ ⟨1000, none, 5, true⟩
    (by decide) (by decide) (by decide)

/-- C9: whenever the partition count a `send` uses (read from or stored
into the cache on that send) is at least 1, the dispatched partition index
lies in `[0, count)` and `gen_range` does not panic. -/
theorem partition_index_in_range (st : Shared) (env : SendEnv)
    (h : 1 ≤ (Producer.send st env).partsUsed) :
    (Producer.send st env).outcome ≠ .panicked ∧
    ∃ p, (Producer.send st env).partition = some p ∧
      p < (Producer.send st env).partsUsed := by
  by_cases hwin : st.last_partition_check < env.now - INTERVAL
  · rcases hmeta : env.metadata with _ | q
    · have hs := send_win_fetch_failed st env hwin hmeta
      rw [hs] at h ⊢
      have hf := dispatchRecord_fields ⟨st.partition_count, env.now⟩ true
        st.partition_count env.rng env.writeOk
      rw [hf.2.2] at h ⊢
      have hr := dispatchRecord_in_range ⟨st.partition_count, env.now⟩ true
        st.partition_count env.rng env.writeOk h
      refine ⟨?_, hr.1⟩
      rw [hr.2]
      split <;> simp
    · have hs := send_win_fetch_ok st env q hwin hmeta
      rw [hs] at h ⊢
      have hf := dispatchRecord_fields ⟨q, env.now⟩ true q env.rng env.writeOk
      rw [hf.2.2] at h ⊢
      have hr := dispatchRecord_in_range ⟨q, env.now⟩ true q env.rng
        env.writeOk h
      refine ⟨?_, hr.1⟩
      rw [hr.2]
      split <;> simp
  · have hs := send_no_win st env hwin
    rw [hs] at h ⊢
    have hf := dispatchRecord_fields st false st.partition_count env.rng
      env.writeOk
    rw [hf.2.2] at h ⊢
    have hr := dispatchRecord_in_range st false st.partition_count env.rng
      env.writeOk h
    refine ⟨?_, hr.1⟩
    rw [hr.2]
    split <;> simp

/-- Witness for C9: under a fresh cache holding a count of 4, the chosen
index is defined, below 4, and nothing panics. -/
theorem partition_index_in_range_witness :
    (Producer.send ⟨4, 1000⟩ ⟨1100, some 7, 11, true⟩).outcome ≠ .panicked ∧
    ∃ p, (Producer.send ⟨4, 1000⟩ ⟨1100, some 7, 11, true⟩).partition
        = some p ∧
      p < (Producer.send ⟨4, 1000⟩ ⟨1100, some 7, 11, true⟩).partsUsed :=
  partition_index_in_range ⟨4, 1000⟩ ⟨1100, some 7, 11, true⟩ (by decide)

/-- C6 (code behaviour at the failing input): `Producer::new` never
inspects the per-topic results of a successful `create_topics` call, so a
per-topic "already exists" outcome is tolerated — but so is every other
per-topic creation failure, such as an authorization error, contradicting
the documented contract that construction fails when the topic cannot be
created. -/
theorem build_ignores_topic_creation_failure :
    Producer.new true
      (some [TopicResult.failed "hub-orders" "TopicAuthorizationFailed"])
      true = .ok ∧
    Producer.new true
      (some [TopicResult.failed "hub-orders" "TopicAlreadyExists"])
      true = .ok ∧
    Producer.new true (some []) false
      = .error "Failed to create Kafka producer" ∧
    Producer.new true none true = .error "Failed to create test topic" ∧
    Producer.new false none true
      = .error "Failed to create Kafka admin client" := by
  refine ⟨rfl, rfl, rfl, rfl, rfl⟩

/-! ### RecvError severity theorems -/

/-- C7 counterexample: `RecvError::Kafka` does not always have severity
`Transient` — wrapping `KafkaError::Nul` it is `Fatal`. -/
theorem recv_kafka_nul_fatal :
    RecvError.severity (.Kafka .Nul) = .Fatal ∧
    RecvError.severity (.Kafka .Nul) ≠ .Transient := by
  exact ⟨rfl, by decide⟩

/-- C7 amended: `Kafka` defers to the wrapped transport error's severity
(hence `Transient` exactly when that error is), while `Protobuf`,
`BadTopic`, `MissingKey` and `MissingPayload` are `Permanent` for every
payload. -/
theorem recv_error_severities (e : KafkaError) (d : DecodeError)
    (t : String) :
    RecvError.severity (.Kafka e) = e.severity ∧
    RecvError.severity (.Protobuf d) = .Permanent ∧
    RecvError.severity (.BadTopic t) = .Permanent ∧
    RecvError.severity .MissingKey = .Permanent ∧
    RecvError.severity .MissingPayload = .Permanent :=
  ⟨rfl, rfl, rfl, rfl, rfl⟩

/-! ### Lemmas on the parse_fields folds -/

/-- Once the attribute fold has chosen a severity it never reverts to
`none`. -/
theorem explicitFold_keeps_some (l : List VariantAttr)
    (acc : Option Severity × List String) (h : acc.1.isSome) :
    (l.foldl explicitStep acc).1.isSome := by
  induction l generalizing acc with
  | nil => exact h
  | cons a rest ih =>
    refine ih (explicitStep acc a) ?_
    rcases hs : a.sevName with _ | s <;> simp [explicitStep, hs, h]

/-- The attribute fold only appends diagnostics. -/
theorem explicitFold_diag_mono (l : List VariantAttr)
    (acc : Option Severity × List String) :
    acc.2.length ≤ (l.foldl explicitStep acc).2.length := by
  induction l generalizing acc with
  | nil => exact Nat.le_refl _
  | cons a rest ih =>
    refine Nat.le_trans ?_ (ih (explicitStep acc a))
    simp only [explicitStep]
    split <;> simp

/-- If the attribute fold ends with no severity chosen, it produced no
diagnostics beyond its initial ones. -/
theorem explicitFold_none_diag (l : List VariantAttr)
    (acc : Option Severity × List String)
    (h : (l.foldl explicitStep acc).1 = none) :
    (l.foldl explicitStep acc).2 = acc.2 := by
  induction l generalizing acc with
  | nil => rfl
  | cons a rest ih =>
    have hnext : (explicitStep acc a).1 = none := by
      by_contra hc
      have : ((explicitStep acc a).1).isSome := by
        rcases ho : (explicitStep acc a).1 with _ | s
        · exact absurd ho hc
        · simp
      have := explicitFold_keeps_some rest _ this
      simp [List.foldl_cons] at h
      rw [h] at this
      simp at this
    have hsev : a.sevName = none := by
      rcases hs : a.sevName with _ | s
      · rfl
      · simp [explicitStep, hs] at hnext
    have hacc : acc.1 = none := by
      simp [explicitStep, hsev] at hnext
      exact hnext
    have hdiag : (explicitStep acc a).2 = acc.2 := by
      simp [explicitStep, hacc]
    calc (List.foldl explicitStep acc (a :: rest)).2
        = (List.foldl explicitStep (explicitStep acc a) rest).2 := rfl
      _ = (explicitStep acc a).2 := ih (explicitStep acc a) (by simpa using h)
      _ = acc.2 := hdiag

/-- Once the field fold has chosen a deferred field it never reverts to
`none`. -/
theorem sourceFold_keeps_some (l : List (Nat × Bool))
    (acc : Option Nat × List String) (h : acc.1.isSome) :
    (l.foldl sourceStep acc).1.isSome := by
  induction l generalizing acc with
  | nil => exact h
  | cons f rest ih =>
    refine ih (sourceStep acc f) ?_
    rcases hb : f.2 with _ | _ <;> simp [sourceStep, hb, h]

/-- If the field fold ends with no deferred field chosen, it produced no
diagnostics beyond its initial ones. -/
theorem sourceFold_none_diag (l : List (Nat × Bool))
    (acc : Option Nat × List String)
    (h : (l.foldl sourceStep acc).1 = none) :
    (l.foldl sourceStep acc).2 = acc.2 := by
  induction l generalizing acc with
  | nil => rfl
  | cons f rest ih =>
    have hnext : (sourceStep acc f).1 = none := by
      by_contra hc
      have : ((sourceStep acc f).1).isSome := by
        rcases ho : (sourceStep acc f).1 with _ | s
        · exact absurd ho hc
        · simp
      have := sourceFold_keeps_some rest _ this
      simp [List.foldl_cons] at h
      rw [h] at this
      simp at this
    have hmark : f.2 = false := by
      rcases hb : f.2
      · rfl
      · simp [sourceStep, hb] at hnext
    have hacc : acc.1 = none := by
      simp [sourceStep, hmark] at hnext
      exact hnext
    have hdiag : (sourceStep acc f).2 = acc.2 := by
      simp [sourceStep, hacc, hmark]
    calc (List.foldl sourceStep acc (f :: rest)).2
        = (List.foldl sourceStep (sourceStep acc f) rest).2 := rfl
      _ = (sourceStep acc f).2 := ih (sourceStep acc f) (by simpa using h)
      _ = acc.2 := hdiag

/-- C8 counterexample: a variant declaring the explicit marker
`#[permanent]` together with one `#[source]` field produces NO diagnostic
— `parse_fields` silently lets the explicit severity win instead of
rejecting the combination. -/
theorem explicit_with_source_not_rejected :
    (parse_fields [.permanent] [true]).1 = [] ∧
    (parse_fields [.permanent] [true]).2 = .const .Permanent := by
  exact ⟨rfl, rfl⟩

/-- C8 amended: two explicit severity markers on one variant do produce a
build-time diagnostic, wherever they sit in the attribute list; but a
variant combining one explicit severity (and no duplicate) with source-
marked fields is accepted without any diagnostic from the combination,
the explicit severity taking precedence over the deferral. -/
theorem triage_conflicting_declarations
    (l1 l2 l3 : List VariantAttr) (a b : VariantAttr) (fields : List Bool)
    (attrs2 : List VariantAttr) (fields2 : List Bool) (s : Severity)
    (f : Nat)
    (ha : a.sevName.isSome) (hb : b.sevName.isSome)
    (h2a : explicitFold attrs2 = (some s, []))
    (h2f : sourceFold fields2 = (some f, [])) :
    (parse_fields (l1 ++ a :: l2 ++ b :: l3) fields).1 ≠ [] ∧
    parse_fields attrs2 fields2 = ([], .const s) := by
  constructor
  · have hlen : 1 ≤ (explicitFold (l1 ++ a :: l2 ++ b :: l3)).2.length := by
      unfold explicitFold
      rw [List.foldl_append, List.foldl_cons, List.foldl_append,
        List.foldl_cons]
      set acc0 := List.foldl explicitStep (none, []) l1 with hacc0
      set acc1 := explicitStep acc0 a with hacc1
      have h1 : acc1.1.isSome := by
        rcases hs : a.sevName with _ | sa
        · rw [hs] at ha; simp at ha
        · simp [hacc1, explicitStep, hs]
      set acc2 := List.foldl explicitStep acc1 l2 with hacc2
      have h2 : acc2.1.isSome := explicitFold_keeps_some l2 acc1 h1
      have h3 : acc2.2.length + 1 ≤ (explicitStep acc2 b).2.length := by
        simp only [explicitStep]
        rw [if_pos ⟨h2, hb⟩]
        simp
      have h4 := explicitFold_diag_mono l3 (explicitStep acc2 b)
      omega
    intro hcon
    have : (parse_fields (l1 ++ a :: l2 ++ b :: l3) fields).1
        = (explicitFold (l1 ++ a :: l2 ++ b :: l3)).2
          ++ (sourceFold fields).2 := rfl
    rw [this] at hcon
    have := List.append_eq_nil.mp hcon
    rw [this.1] at hlen
    simp at hlen
  · show ((explicitFold attrs2).2 ++ (sourceFold fields2).2, _) = _
    rw [h2a, h2f]
    rfl

/-- Witness for the amended C8: `#[transient] #[permanent]` is diagnosed,
while `#[permanent]` beside a `#[source]` field passes untouched with the
explicit severity. -/
theorem triage_conflicting_declarations_witness :
    (parse_fields [.transient, .permanent] []).1 ≠ [] ∧
    parse_fields [.permanent] [true] = ([], .const .Permanent) :=
  triage_conflicting_declarations [] [] [] .transient .permanent []
    [.permanent] [true] .Permanent 0 (by decide) (by decide)
    (by decide) (by decide)

/-- C10: a variant (or struct) with neither a severity marker among its
attributes nor a source/from-marked field derives the fixed default
severity `Permanent`, with no diagnostic — rather than being rejected or
defaulting to `Transient`. -/
theorem no_declaration_defaults_permanent (attrs : List VariantAttr)
    (fields : List Bool)
    (ha : (explicitFold attrs).1 = none)
    (hf : (sourceFold fields).1 = none) :
    parse_fields attrs fields = ([], .const .Permanent) := by
  have hda : (explicitFold attrs).2 = [] :=
    explicitFold_none_diag attrs (none, []) ha
  have hdf : (sourceFold fields).2 = [] :=
    sourceFold_none_diag fields.enum (none, []) hf
  show ((explicitFold attrs).2 ++ (sourceFold fields).2, _) = _
  rw [hda, hdf]
  have : (explicitFold attrs, sourceFold fields) =
      ((none, ([] : List String)), (none, ([] : List String))) := by
    have e1 : explicitFold attrs = (none, []) := by
      rcases hx : explicitFold attrs with ⟨x1, x2⟩
      rw [hx] at ha hda
      simp at ha hda
      rw [ha, hda]
    have e2 : sourceFold fields = (none, []) := by
      rcases hx : sourceFold fields with ⟨x1, x2⟩
      rw [hx] at hf hdf
      simp at hf hdf
      rw [hf, hdf]
    rw [e1, e2]
  have e1 : explicitFold attrs = (none, []) := congrArg Prod.fst this
  have e2 : sourceFold fields = (none, []) := congrArg Prod.snd this
  simp [parse_fields, e1, e2]

/-- Witness for C10: a unit variant with no attributes derives
`Permanent`. -/
theorem no_declaration_defaults_permanent_witness :
    parse_fields [] [] = ([], .const .Permanent) :=
  no_declaration_defaults_permanent [] [] rfl rfl

end HubCore
